import Mathlib

/-
Shallow embedding of the layered configuration resolver in
src/pyapputil/appconfig.py (class ConfigValues and its module-level helpers).

Modelling conventions:
  * A Python dict is an association list `List (String × Value)` whose keys are
    unique in every state the program actually builds; `lookup` returns the
    first binding.  Assigning to an existing key replaces the binding in place,
    assigning to a fresh key appends at the end (insertion order), exactly as
    CPython dicts behave.
  * The code base is Python 2 (`print` statements and `iteritems` appear in
    sibling modules), so `self.keys()` yields a snapshot list and deleting
    from the dict while iterating over that snapshot is well defined.  The
    loops below therefore fold over a snapshot of the key list.
  * Filesystem paths are structural: an absolute path is the list of its
    components from the root, a relative path is a list of components resolved
    against the current working directory.  `os.path.abspath(APP_PATH + "/.."
    * k)` is lexical normalisation, i.e. dropping the last k components;
    `os.path.join(d, p)` returns `p` unchanged when `p` is absolute, which is
    the behaviour the defaults search loop depends on.
  * The filesystem is a predicate `FS` on component lists, `runPath` models
    `runpy.run_path` (the top-level bindings produced by evaluating a defaults
    file), and `yamlOf` models the parse of a YAML file: `some m` is a mapping,
    `none` is a document that parses to Python `None` (empty file or comments
    only).  Exceptions are modelled with `Except PyErr`.
-/

namespace AppConfig

/-- A configuration value: YAML / Python scalars as far as the claims need
them (strings and integers; environment overlays always store strings). -/
inductive Value where
  | vstr (s : String)
  | vint (n : Int)
deriving DecidableEq, Repr

/-- A Python dict with string keys, as an insertion-ordered association list. -/
abbrev Config := List (String × Value)

/-- The filesystem: which component lists name an existing file. -/
abbrev FS := List String → Bool

/-- The process environment (`os.environ`). -/
abbrev Env := List (String × String)

/-- Python exceptions that the modelled code can raise. -/
inductive PyErr where
  | attributeError
  | keyError
  | typeError
deriving DecidableEq, Repr

/-- Dict lookup: the value bound to `k`, if any. -/
def lookup : Config → String → Option Value
  | [], _ => none
  | (k', v) :: rest, k => if k' = k then some v else lookup rest k

/-- The dict's key list (`self.keys()` under Python 2: a snapshot list). -/
def keys (cfg : Config) : List String := cfg.map Prod.fst

/-- Membership test (`k in self`). -/
def containsKey (cfg : Config) (k : String) : Bool := (lookup cfg k).isSome

/-- `self.get(k, d)`. -/
def getD (cfg : Config) (k : String) (d : Value) : Value := (lookup cfg k).getD d

/-- Dict assignment `self[k] = v`: replace the existing binding in place, or
append a new binding at the end. -/
def setKey : Config → String → Value → Config
  | [], k, v => [(k, v)]
  | (k', v') :: rest, k, v =>
      if k' = k then (k, v) :: rest else (k', v') :: setKey rest k v

/-- Dict deletion / `pop(k, None)`: drop any binding of `k`. -/
def eraseKey : Config → String → Config
  | [], _ => []
  | (k', v') :: rest, k =>
      if k' = k then eraseKey rest k else (k', v') :: eraseKey rest k

/-- `self.update(other)`: assign every binding of `other` in order. -/
def updateAll : Config → Config → Config
  | cfg, [] => cfg
  | cfg, (k, v) :: rest => updateAll (setKey cfg k v) rest

/-- Environment lookup (`os.environ[name]` / `name in os.environ`). -/
def strLookup : Env → String → Option String
  | [], _ => none
  | (k', v) :: rest, k => if k' = k then some v else strLookup rest k

/-- `str.upper()` (ASCII, which is all the code uses). -/
def upperStr (s : String) : String := String.mk (s.data.map Char.toUpper)

/-- How Python's string formatting renders a config value
(`"{}{}".format(self[PREFIX_VAR_NAME], ...)`). -/
def valueToStr : Value → String
  | .vstr s => s
  | .vint n => toString n

/-- A POSIX path: absolute (components from the root) or relative. -/
inductive PyPath where
  | abs (comps : List String)
  | rel (comps : List String)
deriving DecidableEq, Repr

/-- `os.path.isabs`. -/
def PyPath.isAbs : PyPath → Bool
  | .abs _ => true
  | .rel _ => false

/-- Join a list of components with slashes. -/
def joinComps : List String → String
  | [] => ""
  | [c] => c
  | c :: rest => c ++ "/" ++ joinComps rest

/-- Render a path as the string Python stores in the dict. -/
def pathStr : PyPath → String
  | .abs cs => "/" ++ joinComps cs
  | .rel cs => joinComps cs

/-- Split a character list on slashes, dropping empty components. -/
def splitCompsAux : List Char → List Char → List String
  | [], cur => if cur.isEmpty then [] else [String.mk cur.reverse]
  | c :: rest, cur =>
      if c = '/' then
        if cur.isEmpty then splitCompsAux rest []
        else String.mk cur.reverse :: splitCompsAux rest []
      else splitCompsAux rest (c :: cur)

/-- Parse a path string: absolute iff it starts with a slash
(`os.path.isabs`). -/
def parsePath (s : String) : PyPath :=
  match s.data with
  | '/' :: rest => .abs (splitCompsAux rest [])
  | cs => .rel (splitCompsAux cs [])

/-- The component list a path denotes, resolving relative paths against the
current working directory (as `open` and `os.path.exists` do). -/
def pathComps (cwd : List String) : PyPath → List String
  | .abs cs => cs
  | .rel cs => cwd ++ cs

/-- `os.path.exists`. -/
def pathExists (fs : FS) (cwd : List String) (p : PyPath) : Bool :=
  fs (pathComps cwd p)

/-- `os.path.join(dir, p)` for an absolute directory `dir`: when `p` is
absolute the directory is discarded, otherwise the components concatenate. -/
def pyJoin (base : List String) : PyPath → PyPath
  | .abs cs => .abs cs
  | .rel cs => .abs (base ++ cs)

/-- `key.startswith("_")`. -/
def startsPrivate (s : String) : Bool :=
  match s.data with
  | c :: _ => c = '_'
  | [] => false

def DEFAULTS_FILENAME : String := "appdefaults.py"
def PREFIX_VAR_NAME : String := "ENV_CONFIG_PREFIX"
def PREFIX_DEFAULT : String := "PYAPP_"
def USER_CONFIG_VAR_NAME : String := "USER_CONFIG"
def USER_CONFIG_DEFAULT : String := "userconfig.yml"

/-
ConfigValues.import_defaults, upward search loop:

    defaults_filepath = DEFAULTS_FILENAME
    modifier = ""
    while True:
        file_path = _os.path.abspath(APP_PATH + modifier)
        defaults_filepath = _os.path.join(file_path, defaults_filepath)
        if _os.path.exists(defaults_filepath):
            break
        if file_path == "/":
            break
        modifier += "/.."

`abspath(APP_PATH + "/.." * k)` is the ancestor obtained by dropping the last
`k` components of `APP_PATH`; we recurse on `rem = appPath.length - k`, the
number of components that survive, so `file_path = appPath.take rem`.  The
loop leaves the `while True` only through the two breaks, and `rem` hits the
root before it could go negative, so the `0` fallthrough arm below is
unreachable.
-/

/-- The search loop body.  `dfp` is the current `defaults_filepath`. -/
def searchGo (fs : FS) (cwd appPath : List String) : Nat → PyPath → PyPath
  | rem, dfp =>
    let file_path := appPath.take rem
    let dfp' := pyJoin file_path dfp
    if pathExists fs cwd dfp' then dfp'
    else if file_path.isEmpty then dfp'
    else
      match rem with
      | 0 => dfp'
      | r + 1 => searchGo fs cwd appPath r dfp'

/-- The `defaults_filepath` the search loop settles on. -/
def dfpOf (fs : FS) (cwd appPath : List String) : PyPath :=
  searchGo fs cwd appPath appPath.length (.rel [DEFAULTS_FILENAME])

/-- The bindings the defaults file contributes: what `runpy.run_path` returns
for the file the search found, or nothing when that file does not exist. -/
def defaultsSource (fs : FS) (runPath : List String → Config)
    (cwd appPath : List String) : Config :=
  if pathExists fs cwd (dfpOf fs cwd appPath) then
    runPath (pathComps cwd (dfpOf fs cwd appPath))
  else []

/-- The private-name strip loop:

    for _key in self.keys():
        if _key.startswith("_"):
            del self[_key]

(Python 2: `self.keys()` is a snapshot list, so deletion is safe.) -/
def stripLoop : List String → Config → Config
  | [], cfg => cfg
  | k :: rest, cfg =>
      stripLoop rest (if startsPrivate k then eraseKey cfg k else cfg)

def stripPrivate (cfg : Config) : Config := stripLoop (keys cfg) cfg

/-- The tail of `import_defaults`:

    if PREFIX_VAR_NAME not in self:
        self[PREFIX_VAR_NAME] = PREFIX_DEFAULT
    if USER_CONFIG_VAR_NAME not in self:
        self[USER_CONFIG_VAR_NAME] = USER_CONFIG_DEFAULT
-/
def forceReserved (base : Config) : Config :=
  let base2 :=
    if containsKey base PREFIX_VAR_NAME then base
    else setKey base PREFIX_VAR_NAME (.vstr PREFIX_DEFAULT)
  if containsKey base2 USER_CONFIG_VAR_NAME then base2
  else setKey base2 USER_CONFIG_VAR_NAME (.vstr USER_CONFIG_DEFAULT)

/-- `ConfigValues.import_defaults`.  `self.clear()` discards the previous
state, so the incoming dict only matters as the object identity. -/
def import_defaults (fs : FS) (runPath : List String → Config)
    (cwd appPath : List String) (_cfg : Config) : Config :=
  let dfp := dfpOf fs cwd appPath
  -- self.clear(); then import and strip when the file exists
  let base : Config :=
    if pathExists fs cwd dfp then
      stripPrivate (updateAll [] (runPath (pathComps cwd dfp)))
    else []
  -- make sure critical values are set
  forceReserved base

/-- `ConfigValues.import_environment`'s loop over `self.keys()`:

    for _varname in self.keys():
        if _varname == PREFIX_VAR_NAME:
            continue
        _env_var_name = "{}{}".format(self[PREFIX_VAR_NAME], _varname.upper())
        if _env_var_name in _os.environ:
            self[_varname] = _os.environ[_env_var_name]

`self[PREFIX_VAR_NAME]` raises KeyError when the prefix key is absent. -/
def envLoop (env : Env) : List String → Config → Except PyErr Config
  | [], cfg => .ok cfg
  | varname :: rest, cfg =>
    if varname = PREFIX_VAR_NAME then envLoop env rest cfg
    else
      match lookup cfg PREFIX_VAR_NAME with
      | none => .error .keyError
      | some pv =>
        match strLookup env (valueToStr pv ++ upperStr varname) with
        | some s => envLoop env rest (setKey cfg varname (.vstr s))
        | none => envLoop env rest cfg

/-- `ConfigValues.import_environment`. -/
def import_environment (env : Env) (cfg : Config) : Except PyErr Config :=
  envLoop env (keys cfg) cfg

/-- The blacklist loop of `ConfigValues._load`:

    blacklisted_vars = (USER_CONFIG_VAR_NAME)
    ...
    for keyname in blacklisted_vars:
        user_config.pop(keyname, None)

`(USER_CONFIG_VAR_NAME)` is the plain string "USER_CONFIG" (no comma, so no
tuple), so the loop iterates over its characters and pops the one-character
keys "U", "S", "E", "R", "_", "C", "O", "N", "F", "I", "G".  When the parsed
document is Python `None`, the first `pop` raises AttributeError. -/
def popLoop : List Char → Option Config → Except PyErr (Option Config)
  | [], uc => .ok uc
  | c :: rest, uc =>
    match uc with
    | none => .error .attributeError
    | some m => popLoop rest (some (eraseKey m (String.mk [c])))

/-- `ConfigValues._load`.  `yamlOf` gives the parse of the file's contents
(`some m` a mapping, `none` a document that parses to Python `None`); the
`GetLogger().debug2` call has no effect on the dict and is omitted. -/
def _load (fs : FS) (yamlOf : List String → Option Config)
    (cwd : List String) (cfg : Config) (path : PyPath) : Except PyErr Config :=
  let cfg1 := setKey cfg USER_CONFIG_VAR_NAME (.vstr (pathStr path))
  if pathExists fs cwd path then
    match popLoop USER_CONFIG_VAR_NAME.data (yamlOf (pathComps cwd path)) with
    | .error e => .error e
    | .ok none => .ok cfg1          -- `if user_config:` is false for None
    | .ok (some m) =>
        if m.isEmpty then .ok cfg1  -- `if user_config:` is false for {}
        else .ok (updateAll cfg1 m)
  else .ok cfg1

/-- Path resolution in `ConfigValues.import_user_config`:

    if not _os.path.exists(config_file) and not _os.path.isabs(config_file):
        config_file = _os.path.join(APP_PATH, config_file)
-/
def resolveConfigPath (fs : FS) (cwd appPath : List String) (p : PyPath) :
    PyPath :=
  if !(pathExists fs cwd p) && !(p.isAbs) then pyJoin appPath p else p

/-- The tail of `import_user_config` once `config_file` is known:
resolve the path, record it in `USER_CONFIG`, and load it. -/
def importUCFrom (fs : FS) (yamlOf : List String → Option Config)
    (cwd appPath : List String) (p : PyPath) (cfg : Config) :
    Except PyErr Config :=
  let cf := resolveConfigPath fs cwd appPath p
  _load fs yamlOf cwd (setKey cfg USER_CONFIG_VAR_NAME (.vstr (pathStr cf))) cf

/-- `ConfigValues.import_user_config`:

    config_file = user_config_file or self.get(USER_CONFIG_VAR_NAME, USER_CONFIG_DEFAULT)

A non-string stored under `USER_CONFIG` would make the `os.path` calls raise
TypeError, which the fallback arm records. -/
def import_user_config (fs : FS) (yamlOf : List String → Option Config)
    (cwd appPath : List String) (user_config_file : Option PyPath)
    (cfg : Config) : Except PyErr Config :=
  match user_config_file with
  | some p => importUCFrom fs yamlOf cwd appPath p cfg
  | none =>
    match getD cfg USER_CONFIG_VAR_NAME (.vstr USER_CONFIG_DEFAULT) with
    | .vstr s => importUCFrom fs yamlOf cwd appPath (parsePath s) cfg
    | _ => .error .typeError

/-- `set_user_config_file(config_file_path)`: re-runs only the user-file
stage with an explicit path. -/
def set_user_config_file (fs : FS) (yamlOf : List String → Option Config)
    (cwd appPath : List String) (p : PyPath) (cfg : Config) :
    Except PyErr Config :=
  import_user_config fs yamlOf cwd appPath (some p) cfg

/-- The keys the user-file stage would parse out of the file at the resolved
path (empty when the file is missing or parses to `None`). -/
def fileKeys (fs : FS) (yamlOf : List String → Option Config)
    (cwd appPath : List String) (p : PyPath) : List String :=
  match yamlOf (pathComps cwd (resolveConfigPath fs cwd appPath p)) with
  | some m => keys m
  | none => []

/-! Concrete fixtures used by witnesses and counterexamples: small
filesystems, defaults files, YAML files and environments. -/

/-- Filesystem for C1: the defaults file exists in the parent directory `/a`
of the application root `/a/b`, and nowhere else. -/
def fsC1 : FS := fun l => l == ["a", "appdefaults.py"]

/-- The bindings of the ancestor defaults file `/a/appdefaults.py`. -/
def runC1 : List String → Config :=
  fun l => if l == ["a", "appdefaults.py"] then [("x", .vint 1)] else []

/-- Filesystem with a defaults file in the application root `/a/b`. -/
def fsD : FS := fun l => l == ["a", "b", "appdefaults.py"]

/-- A defaults file defining private names and one real value, and neither
reserved key. -/
def runD : List String → Config :=
  fun _ => [("__name__", .vstr "m"), ("some_value", .vint 1), ("_x", .vint 9)]

/-- An empty filesystem. -/
def fsNone : FS := fun _ => false

/-- A parse function for a filesystem with no parseable files. -/
def yamlNone : List String → Option Config := fun _ => none

/-- Filesystem for C2: only the user config file `/app/userconfig.yml`
exists (no defaults file anywhere). -/
def fsC2 : FS := fun l => l == ["app", "userconfig.yml"]

/-- Defaults bindings for C2 (never consulted: no defaults file exists). -/
def runC2 : List String → Config := fun _ => []

/-- The user config file for C2 sets `some_value: 123` (an integer). -/
def yamlC2 : List String → Option Config :=
  fun l =>
    if l == ["app", "userconfig.yml"] then some [("some_value", .vint 123)]
    else none

/-- Environment for C2: defines both `PYAPP_SOME_VALUE` and
`PYAPP_ENV_CONFIG_PREFIX`. -/
def envC2 : Env := [("PYAPP_ENV_CONFIG_PREFIX", "X"), ("PYAPP_SOME_VALUE", "456")]

/-- The mapping state after the defaults and user-file stages of the C2
scenario (shown reachable in the counterexample theorem). -/
def cfgC2 : Config :=
  [(PREFIX_VAR_NAME, .vstr "PYAPP_"),
   (USER_CONFIG_VAR_NAME, .vstr "/app/userconfig.yml"),
   ("some_value", .vint 123)]

/-- Filesystem for C3: only the user config file `/tmp/conf.yml` exists. -/
def fsC3 : FS := fun l => l == ["tmp", "conf.yml"]

/-- The C3 user config file contains a `USER_CONFIG` key of its own. -/
def yamlC3 : List String → Option Config :=
  fun l =>
    if l == ["tmp", "conf.yml"] then
      some [("USER_CONFIG", .vstr "evil"), ("b", .vint 2)]
    else none

/-- Mapping state before the C3 user-file stage. -/
def cfgC3 : Config :=
  [(PREFIX_VAR_NAME, .vstr "PYAPP_"),
   (USER_CONFIG_VAR_NAME, .vstr "userconfig.yml"),
   ("a", .vint 1)]

/-- Filesystem for C9: only the new user config file `/new/new.yml` exists. -/
def fsC9 : FS := fun l => l == ["new", "new.yml"]

/-- The new C9 user config file sets only `b: 2`. -/
def yamlC9 : List String → Option Config :=
  fun l => if l == ["new", "new.yml"] then some [("b", .vint 2)] else none

/-- Mapping state before the C9 reload, holding keys the new file lacks. -/
def cfg9 : Config :=
  [("a", .vint 1),
   (USER_CONFIG_VAR_NAME, .vstr "/old/old.yml"),
   (PREFIX_VAR_NAME, .vstr "PYAPP_")]

/-- Mapping state after the C9 reload. -/
def cfg9' : Config :=
  [("a", .vint 1),
   (USER_CONFIG_VAR_NAME, .vstr "/new/new.yml"),
   (PREFIX_VAR_NAME, .vstr "PYAPP_"),
   ("b", .vint 2)]

/-- Filesystem for C10: `/tmp/empty.yml` exists (and parses to `None`). -/
def fsC10 : FS := fun l => l == ["tmp", "empty.yml"]

/-! Basic dictionary lemmas. -/

@[simp] theorem keys_nil : keys ([] : Config) = [] := rfl

@[simp] theorem keys_cons (a : String) (b : Value) (tl : Config) :
    keys ((a, b) :: tl) = a :: keys tl := rfl

theorem lookup_setKey_self (cfg : Config) (k : String) (v : Value) :
    lookup (setKey cfg k v) k = some v := by
  induction cfg with
  | nil => simp [setKey, lookup]
  | cons hd tl ih =>
    obtain ⟨a, b⟩ := hd
    by_cases h : a = k
    · simp [setKey, h, lookup]
    · simp [setKey, h, lookup, ih]

theorem lookup_setKey_other (cfg : Config) (k : String) (v : Value)
    (k' : String) (h : k' ≠ k) :
    lookup (setKey cfg k v) k' = lookup cfg k' := by
  induction cfg with
  | nil => simp [setKey, lookup, Ne.symm h]
  | cons hd tl ih =>
    obtain ⟨a, b⟩ := hd
    by_cases ha : a = k
    · subst ha
      simp [setKey, lookup, Ne.symm h]
    · simp only [setKey, if_neg ha, lookup]
      by_cases hb : a = k'
      · simp [hb]
      · simp [hb, ih]

theorem keys_setKey_mem (cfg : Config) (k : String) (v : Value)
    (h : k ∈ keys cfg) : keys (setKey cfg k v) = keys cfg := by
  induction cfg with
  | nil => simp at h
  | cons hd tl ih =>
    obtain ⟨a, b⟩ := hd
    by_cases ha : a = k
    · simp [setKey, ha]
    · have hk : k ∈ keys tl := by
        rcases List.mem_cons.mp (by simpa using h) with he | hk
        · exact absurd he.symm ha
        · exact hk
      simp [setKey, ha, ih hk]

theorem lookup_eq_none_iff (cfg : Config) (k : String) :
    lookup cfg k = none ↔ k ∉ keys cfg := by
  induction cfg with
  | nil => simp [lookup]
  | cons hd tl ih =>
    obtain ⟨a, b⟩ := hd
    by_cases h : a = k
    · subst h; simp [lookup]
    · simp [lookup, h, ih, Ne.symm h]

theorem containsKey_iff (cfg : Config) (k : String) :
    containsKey cfg k = true ↔ ∃ v, lookup cfg k = some v := by
  simpa [containsKey] using Option.isSome_iff_exists

theorem lookup_eraseKey_self (cfg : Config) (k : String) :
    lookup (eraseKey cfg k) k = none := by
  induction cfg with
  | nil => simp [eraseKey, lookup]
  | cons hd tl ih =>
    obtain ⟨a, b⟩ := hd
    by_cases h : a = k
    · simp [eraseKey, h, ih]
    · simp [eraseKey, h, lookup, ih]

theorem lookup_eraseKey_other (cfg : Config) (k k' : String) (h : k' ≠ k) :
    lookup (eraseKey cfg k) k' = lookup cfg k' := by
  induction cfg with
  | nil => simp [eraseKey]
  | cons hd tl ih =>
    obtain ⟨a, b⟩ := hd
    by_cases ha : a = k
    · subst ha
      simp [eraseKey, lookup, Ne.symm h, ih]
    · simp only [eraseKey, if_neg ha, lookup]
      by_cases hb : a = k'
      · simp [hb]
      · simp [hb, ih]

theorem keys_eraseKey_subset (cfg : Config) (k : String) :
    keys (eraseKey cfg k) ⊆ keys cfg := by
  induction cfg with
  | nil => simp [eraseKey]
  | cons hd tl ih =>
    obtain ⟨a, b⟩ := hd
    by_cases h : a = k
    · simp only [eraseKey, if_pos h, keys_cons]
      exact fun x hx => List.mem_cons_of_mem _ (ih hx)
    · simp only [eraseKey, if_neg h, keys_cons]
      intro x hx
      rcases List.mem_cons.mp hx with hx | hx
      · exact List.mem_cons.mpr (Or.inl hx)
      · exact List.mem_cons_of_mem _ (ih hx)

theorem lookup_updateAll_notmem (k : String) :
    ∀ (m cfg : Config), k ∉ keys m →
      lookup (updateAll cfg m) k = lookup cfg k := by
  intro m
  induction m with
  | nil => intro cfg _; rfl
  | cons hd tl ih =>
    obtain ⟨a, b⟩ := hd
    intro cfg h
    simp only [keys_cons, List.mem_cons, not_or] at h
    rw [updateAll, ih _ h.2, lookup_setKey_other _ _ _ _ h.1]

/-! Lemmas about the private-name strip loop of `import_defaults`. -/

theorem stripLoop_preserve_none (k : String) :
    ∀ (ks : List String) (cfg : Config), lookup cfg k = none →
      lookup (stripLoop ks cfg) k = none := by
  intro ks
  induction ks with
  | nil => intro cfg h; exact h
  | cons a rest ih =>
    intro cfg h
    rw [stripLoop]
    apply ih
    by_cases hp : startsPrivate a
    · rw [if_pos hp]
      by_cases ha : a = k
      · subst ha; exact lookup_eraseKey_self _ _
      · rw [lookup_eraseKey_other _ _ _ (Ne.symm ha)]; exact h
    · rw [if_neg hp]; exact h

theorem stripLoop_kills (k : String) (hk : startsPrivate k = true) :
    ∀ (ks : List String) (cfg : Config), k ∈ ks →
      lookup (stripLoop ks cfg) k = none := by
  intro ks
  induction ks with
  | nil => intro cfg h; simp at h
  | cons a rest ih =>
    intro cfg h
    rcases List.mem_cons.mp h with he | hm
    · subst he
      rw [stripLoop, if_pos hk]
      exact stripLoop_preserve_none _ _ _ (lookup_eraseKey_self _ _)
    · rw [stripLoop]
      exact ih _ hm

theorem stripPrivate_none (cfg : Config) (k : String)
    (hk : startsPrivate k = true) : lookup (stripPrivate cfg) k = none := by
  by_cases h : lookup cfg k = none
  · exact stripLoop_preserve_none _ _ _ h
  · have hm : k ∈ keys cfg := by
      by_contra hn
      exact h ((lookup_eq_none_iff _ _).mpr hn)
    exact stripLoop_kills _ hk _ _ hm

/-! Lemmas about the blacklist pop loop of `_load`. -/

theorem popLoop_some :
    ∀ (cs : List Char) (m : Config), ∃ m',
      popLoop cs (some m) = .ok (some m') ∧ keys m' ⊆ keys m := by
  intro cs
  induction cs with
  | nil => intro m; exact ⟨m, rfl, fun x hx => hx⟩
  | cons c rest ih =>
    intro m
    obtain ⟨m', h1, h2⟩ := ih (eraseKey m (String.mk [c]))
    exact ⟨m', h1, fun x hx => keys_eraseKey_subset _ _ (h2 hx)⟩

theorem popLoop_nil_doc (cs : List Char) (h : cs ≠ []) :
    popLoop cs none = .error .attributeError := by
  match cs with
  | [] => exact absurd rfl h
  | c :: rest => rfl

/-! Lemmas about the environment-overlay loop. -/

theorem envLoop_cons_skip (env : Env) (a : String) (rest : List String)
    (cfg : Config) (ha : a = PREFIX_VAR_NAME) :
    envLoop env (a :: rest) cfg = envLoop env rest cfg := by
  rw [envLoop, if_pos ha]

theorem envLoop_cons_hit (env : Env) (a : String) (rest : List String)
    (cfg : Config) (pv : Value) (s : String) (ha : a ≠ PREFIX_VAR_NAME)
    (hpv : lookup cfg PREFIX_VAR_NAME = some pv)
    (henv : strLookup env (valueToStr pv ++ upperStr a) = some s) :
    envLoop env (a :: rest) cfg = envLoop env rest (setKey cfg a (.vstr s)) := by
  simp only [envLoop, if_neg ha, hpv, henv]

theorem envLoop_cons_miss (env : Env) (a : String) (rest : List String)
    (cfg : Config) (pv : Value) (ha : a ≠ PREFIX_VAR_NAME)
    (hpv : lookup cfg PREFIX_VAR_NAME = some pv)
    (henv : strLookup env (valueToStr pv ++ upperStr a) = none) :
    envLoop env (a :: rest) cfg = envLoop env rest cfg := by
  simp only [envLoop, if_neg ha, hpv, henv]

theorem envLoop_ok (env : Env) (pv : Value) :
    ∀ (ks : List String) (cfg : Config),
      lookup cfg PREFIX_VAR_NAME = some pv →
      (∀ j ∈ ks, j ∈ keys cfg) →
      ∃ cfg', envLoop env ks cfg = .ok cfg' ∧
        lookup cfg' PREFIX_VAR_NAME = some pv ∧
        keys cfg' = keys cfg ∧
        ∀ j ∉ ks, lookup cfg' j = lookup cfg j := by
  intro ks
  induction ks with
  | nil =>
    intro cfg hpv _
    exact ⟨cfg, rfl, hpv, rfl, fun j _ => rfl⟩
  | cons a rest ih =>
    intro cfg hpv hmem
    have hrest : ∀ j ∈ rest, j ∈ keys cfg :=
      fun j hj => hmem j (List.mem_cons_of_mem _ hj)
    by_cases ha : a = PREFIX_VAR_NAME
    · obtain ⟨cfg', h1, h2, h3, h4⟩ := ih cfg hpv hrest
      refine ⟨cfg', ?_, h2, h3, ?_⟩
      · rw [envLoop_cons_skip env a rest cfg ha]; exact h1
      · intro j hj
        simp only [List.mem_cons, not_or] at hj
        exact h4 j hj.2
    · cases henv : strLookup env (valueToStr pv ++ upperStr a) with
      | none =>
        obtain ⟨cfg', h1, h2, h3, h4⟩ := ih cfg hpv hrest
        refine ⟨cfg', ?_, h2, h3, ?_⟩
        · rw [envLoop_cons_miss env a rest cfg pv ha hpv henv]; exact h1
        · intro j hj
          simp only [List.mem_cons, not_or] at hj
          exact h4 j hj.2
      | some s =>
        have hka : a ∈ keys cfg := hmem a (List.mem_cons_self _ _)
        have hkeys : keys (setKey cfg a (.vstr s)) = keys cfg :=
          keys_setKey_mem _ _ _ hka
        have hpv' : lookup (setKey cfg a (.vstr s)) PREFIX_VAR_NAME = some pv := by
          rw [lookup_setKey_other _ _ _ _ (Ne.symm ha)]; exact hpv
        obtain ⟨cfg', h1, h2, h3, h4⟩ :=
          ih (setKey cfg a (.vstr s)) hpv' (fun j hj => hkeys ▸ hrest j hj)
        refine ⟨cfg', ?_, h2, h3.trans hkeys, ?_⟩
        · rw [envLoop_cons_hit env a rest cfg pv s ha hpv henv]; exact h1
        · intro j hj
          simp only [List.mem_cons, not_or] at hj
          rw [h4 j hj.2, lookup_setKey_other _ _ _ _ hj.1]

theorem envLoop_hit (env : Env) (pv : Value) (k s : String)
    (hk : k ≠ PREFIX_VAR_NAME)
    (henv : strLookup env (valueToStr pv ++ upperStr k) = some s) :
    ∀ (ks : List String) (cfg : Config),
      lookup cfg PREFIX_VAR_NAME = some pv →
      (∀ j ∈ ks, j ∈ keys cfg) →
      ks.Nodup → k ∈ ks →
      ∃ cfg', envLoop env ks cfg = .ok cfg' ∧
        lookup cfg' k = some (.vstr s) := by
  intro ks
  induction ks with
  | nil => intro cfg _ _ _ h; simp at h
  | cons a rest ih =>
    intro cfg hpv hmem hnd hin
    have hrest : ∀ j ∈ rest, j ∈ keys cfg :=
      fun j hj => hmem j (List.mem_cons_of_mem _ hj)
    have hnd' := (List.nodup_cons.mp hnd)
    rcases List.mem_cons.mp hin with he | hm
    · subst he
      rw [envLoop_cons_hit env k rest cfg pv s hk hpv henv]
      obtain ⟨cfg', h1, _, _, h4⟩ :=
        envLoop_ok env pv rest (setKey cfg k (.vstr s))
          (by rw [lookup_setKey_other _ _ _ _ (Ne.symm hk)]; exact hpv)
          (fun j hj =>
            keys_setKey_mem cfg k (.vstr s) (hmem k (List.mem_cons_self _ _)) ▸
              hrest j hj)
      refine ⟨cfg', h1, ?_⟩
      rw [h4 k hnd'.1, lookup_setKey_self]
    · by_cases ha : a = PREFIX_VAR_NAME
      · rw [envLoop_cons_skip env a rest cfg ha]
        exact ih cfg hpv hrest hnd'.2 hm
      · cases henv' : strLookup env (valueToStr pv ++ upperStr a) with
        | none =>
          rw [envLoop_cons_miss env a rest cfg pv ha hpv henv']
          exact ih cfg hpv hrest hnd'.2 hm
        | some s' =>
          have hka : a ∈ keys cfg := hmem a (List.mem_cons_self _ _)
          have hkeys : keys (setKey cfg a (.vstr s')) = keys cfg :=
            keys_setKey_mem _ _ _ hka
          rw [envLoop_cons_hit env a rest cfg pv s' ha hpv henv']
          exact ih (setKey cfg a (.vstr s'))
            (by rw [lookup_setKey_other _ _ _ _ (Ne.symm ha)]; exact hpv)
            (fun j hj => hkeys ▸ hrest j hj) hnd'.2 hm

theorem containsKey_setKey_self (cfg : Config) (k : String) (v : Value) :
    containsKey (setKey cfg k v) k = true := by
  rw [containsKey, lookup_setKey_self]; rfl

theorem containsKey_setKey_other (cfg : Config) (k : String) (v : Value)
    (k' : String) (h : k' ≠ k) :
    containsKey (setKey cfg k v) k' = containsKey cfg k' := by
  rw [containsKey, lookup_setKey_other _ _ _ _ h, containsKey]

/-! The defaults search loop: once `defaults_filepath` has become absolute
(after the very first `os.path.join`), every later join returns it unchanged,
so the loop can never pick up a file from an ancestor directory. -/

theorem searchGo_abs (fs : FS) (cwd appPath : List String) :
    ∀ (rem : Nat) (comps : List String),
      searchGo fs cwd appPath rem (.abs comps) = .abs comps := by
  intro rem
  induction rem with
  | zero => intro comps; simp [searchGo, pyJoin]
  | succ r ih => intro comps; simp [searchGo, pyJoin, ih]

/-- The path the search settles on is always
`APP_PATH ++ "/" ++ DEFAULTS_FILENAME`, whatever the filesystem holds. -/
theorem dfpOf_eq (fs : FS) (cwd appPath : List String) :
    dfpOf fs cwd appPath = .abs (appPath ++ [DEFAULTS_FILENAME]) := by
  rw [dfpOf]
  cases h : appPath.length with
  | zero =>
    have hnil : appPath = [] := List.length_eq_zero.mp h
    subst hnil
    simp [searchGo, pyJoin]
  | succ r =>
    rw [searchGo]
    have htake : appPath.take (r + 1) = appPath := by
      rw [← h]; exact List.take_length _
    simp [htake, pyJoin, searchGo_abs]

/-! Lemmas about `forceReserved` and the defaults base. -/

theorem forceReserved_contains_both (base : Config) :
    containsKey (forceReserved base) PREFIX_VAR_NAME = true ∧
    containsKey (forceReserved base) USER_CONFIG_VAR_NAME = true := by
  have hPU : PREFIX_VAR_NAME ≠ USER_CONFIG_VAR_NAME := by decide
  rw [forceReserved]
  by_cases h1 : containsKey base PREFIX_VAR_NAME = true
  · rw [if_pos h1]
    by_cases h2 : containsKey base USER_CONFIG_VAR_NAME = true
    · rw [if_pos h2]; exact ⟨h1, h2⟩
    · rw [if_neg h2]
      exact ⟨by rw [containsKey_setKey_other _ _ _ _ hPU]; exact h1,
        containsKey_setKey_self _ _ _⟩
  · rw [if_neg h1]
    have h1' : containsKey (setKey base PREFIX_VAR_NAME (.vstr PREFIX_DEFAULT))
        PREFIX_VAR_NAME = true := containsKey_setKey_self _ _ _
    by_cases h2 : containsKey (setKey base PREFIX_VAR_NAME (.vstr PREFIX_DEFAULT))
        USER_CONFIG_VAR_NAME = true
    · rw [if_pos h2]; exact ⟨h1', h2⟩
    · rw [if_neg h2]
      exact ⟨by rw [containsKey_setKey_other _ _ _ _ hPU]; exact h1',
        containsKey_setKey_self _ _ _⟩

theorem forceReserved_none_p (base : Config)
    (h : lookup base PREFIX_VAR_NAME = none) :
    lookup (forceReserved base) PREFIX_VAR_NAME = some (.vstr PREFIX_DEFAULT) := by
  have hPU : PREFIX_VAR_NAME ≠ USER_CONFIG_VAR_NAME := by decide
  have hc : ¬ containsKey base PREFIX_VAR_NAME = true := by
    rw [containsKey, h]; simp
  rw [forceReserved, if_neg hc]
  by_cases h2 : containsKey (setKey base PREFIX_VAR_NAME (.vstr PREFIX_DEFAULT))
      USER_CONFIG_VAR_NAME = true
  · rw [if_pos h2, lookup_setKey_self]
  · rw [if_neg h2, lookup_setKey_other _ _ _ _ hPU, lookup_setKey_self]

theorem forceReserved_none_u (base : Config)
    (h : lookup base USER_CONFIG_VAR_NAME = none) :
    lookup (forceReserved base) USER_CONFIG_VAR_NAME =
      some (.vstr USER_CONFIG_DEFAULT) := by
  have hUP : USER_CONFIG_VAR_NAME ≠ PREFIX_VAR_NAME := by decide
  rw [forceReserved]
  by_cases h1 : containsKey base PREFIX_VAR_NAME = true
  · rw [if_pos h1]
    have hc : ¬ containsKey base USER_CONFIG_VAR_NAME = true := by
      rw [containsKey, h]; simp
    rw [if_neg hc, lookup_setKey_self]
  · rw [if_neg h1]
    have h' : lookup (setKey base PREFIX_VAR_NAME (.vstr PREFIX_DEFAULT))
        USER_CONFIG_VAR_NAME = none := by
      rw [lookup_setKey_other _ _ _ _ hUP]; exact h
    have hc : ¬ containsKey (setKey base PREFIX_VAR_NAME (.vstr PREFIX_DEFAULT))
        USER_CONFIG_VAR_NAME = true := by
      rw [containsKey, h']; simp
    rw [if_neg hc, lookup_setKey_self]

theorem forceReserved_other (base : Config) (k : String)
    (hkp : k ≠ PREFIX_VAR_NAME) (hku : k ≠ USER_CONFIG_VAR_NAME) :
    lookup (forceReserved base) k = lookup base k := by
  rw [forceReserved]
  by_cases h1 : containsKey base PREFIX_VAR_NAME = true
  · rw [if_pos h1]
    by_cases h2 : containsKey base USER_CONFIG_VAR_NAME = true
    · rw [if_pos h2]
    · rw [if_neg h2, lookup_setKey_other _ _ _ _ hku]
  · rw [if_neg h1]
    by_cases h2 : containsKey (setKey base PREFIX_VAR_NAME (.vstr PREFIX_DEFAULT))
        USER_CONFIG_VAR_NAME = true
    · rw [if_pos h2, lookup_setKey_other _ _ _ _ hkp]
    · rw [if_neg h2, lookup_setKey_other _ _ _ _ hku,
        lookup_setKey_other _ _ _ _ hkp]

/-- Looking up a key the defaults source does not bind, in the cleared dict
after update-and-strip, gives nothing. -/
theorem lookup_defaults_base_none (fs : FS) (runPath : List String → Config)
    (cwd appPath : List String) (k : String)
    (h : k ∉ keys (defaultsSource fs runPath cwd appPath)) :
    lookup (if pathExists fs cwd (dfpOf fs cwd appPath) then
        stripPrivate (updateAll [] (runPath (pathComps cwd (dfpOf fs cwd appPath))))
      else []) k = none := by
  by_cases he : pathExists fs cwd (dfpOf fs cwd appPath) = true
  · rw [if_pos he]
    rw [defaultsSource, if_pos he] at h
    rw [stripPrivate]
    exact stripLoop_preserve_none _ _ _
      (by rw [lookup_updateAll_notmem _ _ _ h]; rfl)
  · rw [if_neg he]; rfl

theorem import_defaults_eq (fs : FS) (runPath : List String → Config)
    (cwd appPath : List String) (cfg0 : Config) :
    import_defaults fs runPath cwd appPath cfg0 =
      forceReserved (if pathExists fs cwd (dfpOf fs cwd appPath) then
          stripPrivate (updateAll [] (runPath (pathComps cwd (dfpOf fs cwd appPath))))
        else []) := rfl

/-! Claim theorems. -/

/-- Claim C1 (code bug, concrete evaluation): with the application root at
`/a/b` and a defaults file present only in the ancestor directory `/a`, the
search loop still settles on `/a/b/appdefaults.py` — after the first
iteration `defaults_filepath` is absolute and `os.path.join` discards every
ancestor directory — so the existing ancestor file `/a/appdefaults.py` is
never evaluated and the mapping ends up with only the two fallback keys
(in particular the ancestor file's binding `x = 1` is absent). -/
theorem c1_defaults_search_never_ascends :
    fsC1 ["a", "appdefaults.py"] = true ∧
    dfpOf fsC1 [] ["a", "b"] = .abs ["a", "b", "appdefaults.py"] ∧
    pathExists fsC1 [] (dfpOf fsC1 [] ["a", "b"]) = false ∧
    import_defaults fsC1 runC1 [] ["a", "b"] [] =
      [(PREFIX_VAR_NAME, .vstr PREFIX_DEFAULT),
       (USER_CONFIG_VAR_NAME, .vstr USER_CONFIG_DEFAULT)] ∧
    lookup (import_defaults fsC1 runC1 [] ["a", "b"] []) "x" = none := by
  exact ⟨rfl, by decide, by decide, rfl, by decide⟩

/-- Claim C2, counterexample to the claim as stated: after the defaults and
user-file stages the key `ENV_CONFIG_PREFIX` is present with value
`"PYAPP_"`, and the environment defines the variable
`PYAPP_ENV_CONFIG_PREFIX = "X"` whose name is the prefix value concatenated
with the uppercased key name; yet the environment-overlay stage leaves the
key's value at `"PYAPP_"` (the loop explicitly skips the prefix key), so the
universally quantified claim fails at this key. -/
theorem c2_counterexample :
    import_user_config fsC2 yamlC2 ["cwd"] ["app"]
        (some (.rel ["userconfig.yml"]))
        (import_defaults fsC2 runC2 ["cwd"] ["app"] []) = .ok cfgC2 ∧
    lookup cfgC2 PREFIX_VAR_NAME = some (.vstr "PYAPP_") ∧
    strLookup envC2 (valueToStr (.vstr "PYAPP_") ++ upperStr PREFIX_VAR_NAME) =
      some "X" ∧
    import_environment envC2 cfgC2 =
      .ok [(PREFIX_VAR_NAME, .vstr "PYAPP_"),
           (USER_CONFIG_VAR_NAME, .vstr "/app/userconfig.yml"),
           ("some_value", .vstr "456")] ∧
    lookup [(PREFIX_VAR_NAME, Value.vstr "PYAPP_"),
           (USER_CONFIG_VAR_NAME, Value.vstr "/app/userconfig.yml"),
           ("some_value", Value.vstr "456")] PREFIX_VAR_NAME ≠
      some (.vstr "X") := by
  exact ⟨rfl, by decide, by decide, rfl, by decide⟩

/-- Claim C2 (amended): for every key present in the mapping other than
`ENV_CONFIG_PREFIX` itself, if the environment defines a variable named
prefix-value ++ uppercased key, the environment-overlay stage stores that
variable's value for the key as a raw string — whatever value (of whatever
type) the key held before. -/
theorem c2_env_overrides_key (env : Env) (cfg : Config) (pv : Value)
    (k s : String)
    (hnd : (keys cfg).Nodup)
    (hpv : lookup cfg PREFIX_VAR_NAME = some pv)
    (hk : k ≠ PREFIX_VAR_NAME)
    (hmem : k ∈ keys cfg)
    (henv : strLookup env (valueToStr pv ++ upperStr k) = some s) :
    ∃ cfg', import_environment env cfg = .ok cfg' ∧
      lookup cfg' k = some (.vstr s) :=
  envLoop_hit env pv k s hk henv (keys cfg) cfg hpv (fun _ hj => hj) hnd hmem

/-- Claim C2 witness: with the user file having set `some_value: 123` (an
integer) and the environment holding `PYAPP_SOME_VALUE=456`, the resolved
value of `some_value` is the string "456". -/
theorem c2_env_overrides_key_witness :
    ∃ cfg', import_environment envC2 cfgC2 = .ok cfg' ∧
      lookup cfg' "some_value" = some (.vstr "456") :=
  c2_env_overrides_key envC2 cfgC2 (.vstr "PYAPP_") "some_value" "456"
    (by decide) (by decide) (by decide) (by decide) (by decide)

/-- Claim C3 (code bug, concrete evaluation): `blacklisted_vars =
(USER_CONFIG_VAR_NAME)` is the plain string "USER_CONFIG", not a tuple, so
the blacklist loop pops single-character keys and never the key
`USER_CONFIG`; a user file containing `USER_CONFIG: evil` therefore
overwrites the resolver's own `USER_CONFIG` entry, which ends up as
`"evil"` instead of the resolved path `/tmp/conf.yml`. -/
theorem c3_blacklist_is_chars :
    yamlC3 ["tmp", "conf.yml"] =
      some [("USER_CONFIG", .vstr "evil"), ("b", .vint 2)] ∧
    import_user_config fsC3 yamlC3 ["cwd"] ["app"]
        (some (.abs ["tmp", "conf.yml"])) cfgC3 =
      .ok [(PREFIX_VAR_NAME, .vstr "PYAPP_"),
           (USER_CONFIG_VAR_NAME, .vstr "evil"),
           ("a", .vint 1), ("b", .vint 2)] ∧
    pathStr (.abs ["tmp", "conf.yml"]) = "/tmp/conf.yml" ∧
    (Value.vstr "evil" ≠ .vstr "/tmp/conf.yml") := by
  exact ⟨rfl, rfl, by decide, by decide⟩

/-- Claim C4: the environment-overlay stage never adds a key (the key list
after the stage equals the key list before), and the value stored under
`ENV_CONFIG_PREFIX` is never overwritten by this stage, for every process
environment. -/
theorem c4_env_overlay_frame (env : Env) (cfg : Config)
    (h : containsKey cfg PREFIX_VAR_NAME = true) :
    ∃ cfg', import_environment env cfg = .ok cfg' ∧
      keys cfg' = keys cfg ∧
      lookup cfg' PREFIX_VAR_NAME = lookup cfg PREFIX_VAR_NAME := by
  obtain ⟨pv, hpv⟩ := (containsKey_iff _ _).mp h
  obtain ⟨cfg', h1, h2, h3, _⟩ :=
    envLoop_ok env pv (keys cfg) cfg hpv (fun _ hj => hj)
  exact ⟨cfg', h1, h3, by rw [h2, hpv]⟩

/-- Claim C4 witness: a concrete environment overlay run adding no keys and
preserving the prefix entry. -/
theorem c4_env_overlay_frame_witness :
    ∃ cfg', import_environment envC2 cfgC2 = .ok cfg' ∧
      keys cfg' = keys cfgC2 ∧
      lookup cfg' PREFIX_VAR_NAME = lookup cfgC2 PREFIX_VAR_NAME :=
  c4_env_overlay_frame envC2 cfgC2 (by decide)

/-- Claim C5: after the defaults-loading stage, `ENV_CONFIG_PREFIX` and
`USER_CONFIG` are both present; when the defaults source does not bind them
(in particular when no defaults file was found, so the source is empty),
their values are the fixed fallback constants "PYAPP_" and
"userconfig.yml". -/
theorem c5_reserved_keys_present (fs : FS) (runPath : List String → Config)
    (cwd appPath : List String) (cfg0 : Config) :
    containsKey (import_defaults fs runPath cwd appPath cfg0)
      PREFIX_VAR_NAME = true ∧
    containsKey (import_defaults fs runPath cwd appPath cfg0)
      USER_CONFIG_VAR_NAME = true ∧
    (PREFIX_VAR_NAME ∉ keys (defaultsSource fs runPath cwd appPath) →
      lookup (import_defaults fs runPath cwd appPath cfg0) PREFIX_VAR_NAME =
        some (.vstr PREFIX_DEFAULT)) ∧
    (USER_CONFIG_VAR_NAME ∉ keys (defaultsSource fs runPath cwd appPath) →
      lookup (import_defaults fs runPath cwd appPath cfg0) USER_CONFIG_VAR_NAME =
        some (.vstr USER_CONFIG_DEFAULT)) := by
  rw [import_defaults_eq]
  refine ⟨(forceReserved_contains_both _).1, (forceReserved_contains_both _).2,
    fun h => ?_, fun h => ?_⟩
  · exact forceReserved_none_p _ (lookup_defaults_base_none fs runPath cwd appPath _ h)
  · exact forceReserved_none_u _ (lookup_defaults_base_none fs runPath cwd appPath _ h)

/-- Claim C5 witness: a defaults file that binds neither reserved key yields
both fallbacks. -/
theorem c5_reserved_keys_present_witness :
    containsKey (import_defaults fsD runD [] ["a", "b"] [])
      PREFIX_VAR_NAME = true ∧
    lookup (import_defaults fsD runD [] ["a", "b"] []) PREFIX_VAR_NAME =
      some (.vstr PREFIX_DEFAULT) ∧
    lookup (import_defaults fsD runD [] ["a", "b"] []) USER_CONFIG_VAR_NAME =
      some (.vstr USER_CONFIG_DEFAULT) :=
  ⟨(c5_reserved_keys_present fsD runD [] ["a", "b"] []).1,
   (c5_reserved_keys_present fsD runD [] ["a", "b"] []).2.2.1 (by decide),
   (c5_reserved_keys_present fsD runD [] ["a", "b"] []).2.2.2 (by decide)⟩

/-- Claim C6: every top-level name bound by the defaults source that starts
with an underscore is absent from the mapping after the defaults-loading
stage (the strip loop removes them, and the two force-set reserved keys do
not start with an underscore). -/
theorem c6_private_names_absent (fs : FS) (runPath : List String → Config)
    (cwd appPath : List String) (cfg0 : Config) (k : String)
    (hk : startsPrivate k = true) :
    lookup (import_defaults fs runPath cwd appPath cfg0) k = none := by
  have hkp : k ≠ PREFIX_VAR_NAME := by
    intro he; rw [he] at hk; exact absurd hk (by decide)
  have hku : k ≠ USER_CONFIG_VAR_NAME := by
    intro he; rw [he] at hk; exact absurd hk (by decide)
  rw [import_defaults_eq, forceReserved_other _ _ hkp hku]
  by_cases he : pathExists fs cwd (dfpOf fs cwd appPath) = true
  · rw [if_pos he]
    exact stripPrivate_none _ _ hk
  · rw [if_neg he]; rfl

/-- Claim C6 witness: the names `__name__` and `_x` bound by a concrete
defaults file do not survive into the mapping (while `some_value` does). -/
theorem c6_private_names_absent_witness :
    startsPrivate "_x" = true ∧
    lookup (import_defaults fsD runD [] ["a", "b"] []) "_x" = none ∧
    lookup (import_defaults fsD runD [] ["a", "b"] []) "__name__" = none ∧
    lookup (import_defaults fsD runD [] ["a", "b"] []) "some_value" =
      some (.vint 1) :=
  ⟨by decide, c6_private_names_absent fsD runD [] ["a", "b"] [] "_x" (by decide),
   c6_private_names_absent fsD runD [] ["a", "b"] [] "__name__" (by decide),
   by decide⟩

/-- Claim C7: in the user-config-file stage, a relative path that does not
exist relative to the current working directory is joined under the
application root; that joined path is the one recorded in `USER_CONFIG` and
handed to the loader.  An absolute path, or a path that does exist relative
to the working directory, is used as given. -/
theorem c7_user_config_path_resolution (fs : FS)
    (yamlOf : List String → Option Config) (cwd appPath : List String)
    (p : PyPath) (cfg : Config) :
    (p.isAbs = false → pathExists fs cwd p = false →
      resolveConfigPath fs cwd appPath p = pyJoin appPath p ∧
      import_user_config fs yamlOf cwd appPath (some p) cfg =
        _load fs yamlOf cwd
          (setKey cfg USER_CONFIG_VAR_NAME (.vstr (pathStr (pyJoin appPath p))))
          (pyJoin appPath p)) ∧
    ((p.isAbs = true ∨ pathExists fs cwd p = true) →
      resolveConfigPath fs cwd appPath p = p ∧
      import_user_config fs yamlOf cwd appPath (some p) cfg =
        _load fs yamlOf cwd
          (setKey cfg USER_CONFIG_VAR_NAME (.vstr (pathStr p))) p) := by
  have hrw : import_user_config fs yamlOf cwd appPath (some p) cfg =
      _load fs yamlOf cwd
        (setKey cfg USER_CONFIG_VAR_NAME
          (.vstr (pathStr (resolveConfigPath fs cwd appPath p))))
        (resolveConfigPath fs cwd appPath p) := rfl
  constructor
  · intro h1 h2
    have hres : resolveConfigPath fs cwd appPath p = pyJoin appPath p := by
      simp [resolveConfigPath, h1, h2]
    rw [hrw, hres]
    exact ⟨rfl, rfl⟩
  · intro h
    have hres : resolveConfigPath fs cwd appPath p = p := by
      rcases h with h | h
      · simp [resolveConfigPath, h]
      · simp [resolveConfigPath, h]
    rw [hrw, hres]
    exact ⟨rfl, rfl⟩

/-- Claim C7 witness: the default relative file name, absent everywhere,
resolves under the application root. -/
theorem c7_user_config_path_resolution_witness :
    resolveConfigPath fsNone ["cwd"] ["app"] (.rel ["userconfig.yml"]) =
      pyJoin ["app"] (.rel ["userconfig.yml"]) ∧
    import_user_config fsNone yamlNone ["cwd"] ["app"]
        (some (.rel ["userconfig.yml"])) [] =
      _load fsNone yamlNone ["cwd"]
        (setKey [] USER_CONFIG_VAR_NAME
          (.vstr (pathStr (pyJoin ["app"] (.rel ["userconfig.yml"])))))
        (pyJoin ["app"] (.rel ["userconfig.yml"])) :=
  (c7_user_config_path_resolution fsNone yamlNone ["cwd"] ["app"]
    (.rel ["userconfig.yml"]) []).1 rfl rfl

/-- Claim C8: when the resolved user-config path names no existing file, the
user-file stage raises no error and changes nothing except `USER_CONFIG`,
which receives the resolved path. -/
theorem c8_missing_user_file_noop (fs : FS)
    (yamlOf : List String → Option Config) (cwd appPath : List String)
    (p : PyPath) (cfg : Config)
    (h : pathExists fs cwd (resolveConfigPath fs cwd appPath p) = false) :
    ∃ cfg', import_user_config fs yamlOf cwd appPath (some p) cfg = .ok cfg' ∧
      lookup cfg' USER_CONFIG_VAR_NAME =
        some (.vstr (pathStr (resolveConfigPath fs cwd appPath p))) ∧
      ∀ k, k ≠ USER_CONFIG_VAR_NAME → lookup cfg' k = lookup cfg k := by
  have hrw : import_user_config fs yamlOf cwd appPath (some p) cfg =
      _load fs yamlOf cwd
        (setKey cfg USER_CONFIG_VAR_NAME
          (.vstr (pathStr (resolveConfigPath fs cwd appPath p))))
        (resolveConfigPath fs cwd appPath p) := rfl
  refine ⟨setKey
      (setKey cfg USER_CONFIG_VAR_NAME
        (.vstr (pathStr (resolveConfigPath fs cwd appPath p))))
      USER_CONFIG_VAR_NAME
      (.vstr (pathStr (resolveConfigPath fs cwd appPath p))), ?_, ?_, ?_⟩
  · rw [hrw, _load, if_neg (by rw [h]; simp)]
  · rw [lookup_setKey_self]
  · intro k hk
    rw [lookup_setKey_other _ _ _ _ hk, lookup_setKey_other _ _ _ _ hk]

/-- Claim C8 witness: a concrete missing user file leaves the (empty) mapping
untouched apart from the recorded path. -/
theorem c8_missing_user_file_noop_witness :
    ∃ cfg', import_user_config fsNone yamlNone ["cwd"] ["app"]
        (some (.rel ["userconfig.yml"])) [] = .ok cfg' ∧
      lookup cfg' USER_CONFIG_VAR_NAME =
        some (.vstr (pathStr (resolveConfigPath fsNone ["cwd"] ["app"]
          (.rel ["userconfig.yml"])))) ∧
      ∀ k, k ≠ USER_CONFIG_VAR_NAME → lookup cfg' k = lookup ([] : Config) k :=
  c8_missing_user_file_noop fsNone yamlNone ["cwd"] ["app"]
    (.rel ["userconfig.yml"]) [] rfl

/-- Claim C9: re-running the user-file stage with a new path only overwrites
keys parsed from the new file (plus `USER_CONFIG`); every other key keeps its
current value. -/
theorem c9_reload_preserves_other_keys (fs : FS)
    (yamlOf : List String → Option Config) (cwd appPath : List String)
    (p : PyPath) (cfg cfg' : Config) (k : String)
    (h : set_user_config_file fs yamlOf cwd appPath p cfg = .ok cfg')
    (hk : k ≠ USER_CONFIG_VAR_NAME)
    (hf : k ∉ fileKeys fs yamlOf cwd appPath p) :
    lookup cfg' k = lookup cfg k := by
  have hrw : set_user_config_file fs yamlOf cwd appPath p cfg =
      _load fs yamlOf cwd
        (setKey cfg USER_CONFIG_VAR_NAME
          (.vstr (pathStr (resolveConfigPath fs cwd appPath p))))
        (resolveConfigPath fs cwd appPath p) := rfl
  rw [hrw] at h
  set r := resolveConfigPath fs cwd appPath p with hr
  set cfgA := setKey cfg USER_CONFIG_VAR_NAME (.vstr (pathStr r)) with hA
  have hlookA : ∀ v, lookup (setKey cfgA USER_CONFIG_VAR_NAME v) k =
      lookup cfg k := by
    intro v
    rw [lookup_setKey_other _ _ _ _ hk, hA, lookup_setKey_other _ _ _ _ hk]
  rw [_load] at h
  by_cases he : pathExists fs cwd r = true
  · rw [if_pos he] at h
    cases hy : yamlOf (pathComps cwd r) with
    | none =>
      rw [hy, popLoop_nil_doc _ (by decide)] at h
      exact absurd h (by simp)
    | some m =>
      obtain ⟨m', hp, hsub⟩ := popLoop_some USER_CONFIG_VAR_NAME.data m
      rw [hy, hp] at h
      have hkm : k ∉ keys m' := by
        intro hin
        apply hf
        simp only [fileKeys, ← hr, hy]
        exact hsub hin
      by_cases hm : m'.isEmpty = true
      · simp only [hm, if_pos] at h
        cases h
        exact hlookA _
      · simp only [hm, if_neg, Bool.false_eq_true, not_false_iff] at h
        cases h
        rw [lookup_updateAll_notmem _ _ _ hkm]
        exact hlookA _
  · rw [if_neg he] at h
    cases h
    exact hlookA _

/-- Claim C9 witness: reloading with `/new/new.yml` (which sets only `b`)
keeps the existing value of `a`. -/
theorem c9_reload_preserves_other_keys_witness :
    lookup cfg9' "a" = lookup cfg9 "a" :=
  c9_reload_preserves_other_keys fsC9 yamlC9 ["cwd"] ["app"]
    (.abs ["new", "new.yml"]) cfg9 cfg9' "a" rfl (by decide) (by decide)

/-- Claim C10: a user-config file that exists but parses to `None` (empty or
comment-only YAML) makes the user-file stage raise (AttributeError from
`None.pop`): the parse result is popped before the emptiness check. -/
theorem c10_none_yaml_raises (fs : FS)
    (yamlOf : List String → Option Config) (cwd appPath : List String)
    (p : PyPath) (cfg : Config)
    (h1 : pathExists fs cwd (resolveConfigPath fs cwd appPath p) = true)
    (h2 : yamlOf (pathComps cwd (resolveConfigPath fs cwd appPath p)) = none) :
    import_user_config fs yamlOf cwd appPath (some p) cfg =
      .error .attributeError := by
  have hrw : import_user_config fs yamlOf cwd appPath (some p) cfg =
      _load fs yamlOf cwd
        (setKey cfg USER_CONFIG_VAR_NAME
          (.vstr (pathStr (resolveConfigPath fs cwd appPath p))))
        (resolveConfigPath fs cwd appPath p) := rfl
  rw [hrw, _load, if_pos h1, h2, popLoop_nil_doc _ (by decide)]

/-- Claim C10 witness: the concrete file `/tmp/empty.yml`, existing but
parsing to `None`, makes the stage raise. -/
theorem c10_none_yaml_raises_witness :
    import_user_config fsC10 yamlNone ["cwd"] ["app"]
        (some (.abs ["tmp", "empty.yml"])) [(USER_CONFIG_VAR_NAME, .vstr "u")] =
      .error .attributeError :=
  c10_none_yaml_raises fsC10 yamlNone ["cwd"] ["app"]
    (.abs ["tmp", "empty.yml"]) [(USER_CONFIG_VAR_NAME, .vstr "u")] rfl rfl

end AppConfig
